import Mathlib

/-!
Verification model of the `network-react` data-fetching hooks.

The definitions below are a shallow embedding of the repository's two hook
implementations: the REST hook `useFetch` (src/unnamed/part_001) and the
GraphQL hook `useGraphQL` (src/unnamed/part_006).  The asynchronous callback
that a hook schedules behind its debounce timer is modelled as a pure
function producing the ordered list of its observable actions (state
publications, cache writes, transport invocations, retry-delay waits); the
React state cell triple `(data, loading, error)` is modelled as a record that
those actions are folded over.
-/

set_option maxRecDepth 4000

namespace NetworkReact

/-- A JavaScript value caught by a `catch (err)` clause: either an `Error`
instance carrying a message, or any other thrown value. -/
inductive JsError where
  | error (message : String)
  | nonError
deriving DecidableEq

/-- The transport response shape the hooks consume:
`{ ok, status, statusText, json() }`.  `body` is the value `json()` resolves
to (decoding is modelled as already performed; a rejecting `json()` is
covered by `TransportResult.rejected`, which feeds the same catch clause). -/
structure Response (α : Type) where
  ok : Bool
  status : Nat
  statusText : String
  body : α
deriving DecidableEq

/-- Settlement of one `fetch(url, ...)` call: the promise resolves to a
`Response` or rejects with a thrown value. -/
inductive TransportResult (α : Type) where
  | resolved (r : Response α)
  | rejected (e : JsError)
deriving DecidableEq

/-- Message produced by the catch clause (part_001 lines 184-189):
`err.message` when `err instanceof Error`, otherwise the fixed generic
message. -/
def catchMessage : JsError → String
  | .error m => m
  | .nonError => "An unknown error occurred"

/-- Classification of one attempt (part_001 lines 169-189): a response with
`ok = false` throws `` Error(`Error: ${status} ${statusText}`) `` which the
catch clause turns into that message; an `ok` response yields the decoded
body; a rejected transport goes through `catchMessage`. -/
def runAttempt {α : Type} (t : TransportResult α) : Except String α :=
  match t with
  | .resolved r =>
      if r.ok then Except.ok r.body
      else Except.error ("Error: " ++ toString r.status ++ " " ++ r.statusText)
  | .rejected e => Except.error (catchMessage e)

/-- Observable actions of one debounce-callback execution: `setData`,
`setLoading`, `setError` state publications, cache writes, transport
invocations (`fetch` calls) and retry-delay waits. -/
inductive Ev (α : Type) where
  | invoke
  | setData (v : α)
  | setLoading (b : Bool)
  | setError (e : Option String)
  | cacheWrite (v : α)
  | waitRetry (ms : Nat)
deriving DecidableEq

/-- The published React state of a hook instance. -/
structure FetchState (α : Type) where
  data : Option α
  loading : Bool
  error : Option String
deriving DecidableEq

/-- Effect of one action on the published state (non-publication actions
leave it unchanged). -/
def applyEv {α : Type} (s : FetchState α) : Ev α → FetchState α
  | .setData v => { s with data := some v }
  | .setLoading b => { s with loading := b }
  | .setError e => { s with error := e }
  | _ => s

/-- Published state after a list of actions runs. -/
def runEvents {α : Type} (s : FetchState α) (evs : List (Ev α)) : FetchState α :=
  evs.foldl applyEv s

/-- Initial hook state (part_001 lines 134-136): `data` is
`useCache ? cache.get(url) : undefined`, `loading` is
`!useCache || !cache.has(url)`, `error` starts unset.  `cached` stands for
the cache entry under the instance's fingerprint at mount time. -/
def initState {α : Type} (useCache : Bool) (cached : Option α) : FetchState α :=
  { data := if useCache then cached else none
  , loading := !useCache || cached.isNone
  , error := none }

def isInvoke {α : Type} : Ev α → Bool
  | .invoke => true
  | _ => false

def isWaitEv {α : Type} : Ev α → Bool
  | .waitRetry _ => true
  | _ => false

def isPublish {α : Type} : Ev α → Bool
  | .setData _ => true
  | .setLoading _ => true
  | .setError _ => true
  | _ => false

/-- Number of transport invocations in an action list. -/
def countInvokes {α : Type} (evs : List (Ev α)) : Nat := evs.countP isInvoke

/-- Number of retry-delay waits in an action list. -/
def countWaits {α : Type} (evs : List (Ev α)) : Nat := evs.countP isWaitEv

/-- The retry loop of part_001 lines 156-197.  `fuel` is the number of
iterations the guard `attempt <= retries` still allows
(`fuel = retries - attempt + 1`); `transports i` is the settlement of the
`fetch` call made by attempt `i`.  Success: `setData`, conditional cache
write, `setError(undefined)`, then the `finally` clause's
`setLoading(false)` on the `return` path.  Failure: `setError(message)`;
if attempts remain, the retry-delay wait (inside the catch clause) and the
`finally` clause's `setLoading(false)`, then the next iteration; otherwise
`break`, which runs the `finally` clause and then falls to the trailing
`setLoading(false)` of line 197 (two publications).  The `fuel = 0` arm is
unreachable from `fuel = retries + 1 ≥ 1` and models falling out of the
loop to line 197. -/
def fetchLoopAux {α : Type} (retryDelay : Nat) (useCache : Bool)
    (transports : Nat → TransportResult α) (attempt fuel : Nat) : List (Ev α) :=
  match fuel with
  | 0 => [Ev.setLoading false]
  | fuel' + 1 =>
      match runAttempt (transports attempt) with
      | .ok v =>
          Ev.invoke :: Ev.setData v ::
            ((if useCache then [Ev.cacheWrite v] else []) ++
              [Ev.setError none, Ev.setLoading false])
      | .error m =>
          Ev.invoke :: Ev.setError (some m) ::
            (if fuel' = 0 then
              [Ev.setLoading false, Ev.setLoading false]
            else
              Ev.waitRetry retryDelay :: Ev.setLoading false ::
                fetchLoopAux retryDelay useCache transports (attempt + 1) fuel')

/-- Body of part_001's debounce callback (lines 146-198): when caching is on
and the fingerprint has an entry, publish the cached value and
`loading = false` and return without touching the network; otherwise publish
`setLoading(true)`, `setError(undefined)` and run the retry loop from
attempt 0 with `retries + 1` allowed iterations.  `cached` is
`cache.get(url)` at callback time (`none` exactly when `cache.has(url)` is
false). -/
def fetchData {α : Type} (useCache : Bool) (cached : Option α)
    (retries retryDelay : Nat) (transports : Nat → TransportResult α) : List (Ev α) :=
  match useCache, cached with
  | true, some v => [Ev.setData v, Ev.setLoading false]
  | _, _ =>
      Ev.setLoading true :: Ev.setError none ::
        fetchLoopAux retryDelay useCache transports 0 (retries + 1)

/-- The module-level `cache` map of part_001 line 106, keyed by the REST
fingerprint (the target URL).  `Map.set` is modelled by prepending and
`Map.get`/`Map.has` by first-match lookup, so a later `set` shadows an
earlier one. -/
def Cache (α : Type) : Type := List (String × α)

/-- Lookup `cache.get(url)` (`none` exactly when `cache.has(url)` is false). -/
def cacheGet {α : Type} (c : Cache α) (url : String) : Option α :=
  match c with
  | [] => none
  | (k, v) :: rest => if k = url then some v else cacheGet rest url

/-- Write `cache.set(url, v)`. -/
def cacheSet {α : Type} (c : Cache α) (url : String) (v : α) : Cache α :=
  (url, v) :: c

/-- Effect of one action on the shared cache: only `cache.set` writes it. -/
def applyCacheEv {α : Type} (url : String) (c : Cache α) : Ev α → Cache α
  | .cacheWrite v => cacheSet c url v
  | _ => c

/-- Shared cache contents after an instance's action list runs. -/
def runCache {α : Type} (url : String) (c : Cache α) (evs : List (Ev α)) : Cache α :=
  evs.foldl (applyCacheEv url) c

/-- Transport that always rejects with an `Error` carrying message "boom". -/
def failBoom : Nat → TransportResult Nat :=
  fun _ => TransportResult.rejected (JsError.error "boom")

/-- Transport whose attempt 0 rejects with message "boom1" and whose later
attempts reject with message "boom2". -/
def failTwice : Nat → TransportResult Nat :=
  fun i => TransportResult.rejected (JsError.error (if i = 0 then "boom1" else "boom2"))

/-- Transport standing for a `fetch` rejected because its abort signal fired
(the rejection is an `Error` whose message is the abort reason). -/
def abortReject : Nat → TransportResult Nat :=
  fun _ => TransportResult.rejected (JsError.error "The user aborted a request.")

/-- State of the debounce gate of part_001 lines 141-146: the pending
debounce timer's fire time, if one is scheduled, and the fire times at which
the scheduled callback actually ran, in order.  Time is in milliseconds. -/
structure DebounceState where
  pending : Option Nat
  fired : List Nat
deriving DecidableEq

/-- A scheduled timer whose fire time has been reached runs before any later
call into the hook does (the event loop delivers due timer callbacks
first). -/
def flushUpTo (s : DebounceState) (t : Nat) : DebounceState :=
  match s.pending with
  | some ft => if ft ≤ t then { pending := none, fired := s.fired ++ [ft] } else s
  | none => s

/-- One `fetchData()` trigger at time `t` (part_001 lines 141-146): any due
timer has already run; then `clearTimeout` cancels a still-pending timer and
`setTimeout` schedules the callback for `t + D`. -/
def dtrigger (D : Nat) (s : DebounceState) (t : Nat) : DebounceState :=
  let s' := flushUpTo s t
  { pending := some (t + D), fired := s'.fired }

/-- After the last trigger, a still-pending timer eventually fires. -/
def finalFires (s : DebounceState) : List Nat :=
  match s.pending with
  | some ft => s.fired ++ [ft]
  | none => s.fired

/-- Fire times of the debounced callback for a sequence of trigger times. -/
def debounceRun (D : Nat) (ts : List Nat) : List Nat :=
  finalFires (ts.foldl (dtrigger D) { pending := none, fired := [] })

/-- The last of the trigger times `ts`, or `t` when there are none. -/
def lastTime (ts : List Nat) (t : Nat) : Nat :=
  match ts with
  | [] => t
  | u :: us => lastTime us u

/-- The trigger times `ts` are ordered and each arrives strictly less than
`D` after the previous one (starting from `prev`). -/
def gapsLt (D : Nat) : Nat → List Nat → Bool
  | _, [] => true
  | prev, u :: us => (decide (prev ≤ u) && decide (u - prev < D)) && gapsLt D u us

/-- Each trigger time in `ts` arrives at least `D` after the previous one
(starting from `prev`). -/
def gapsGe (D : Nat) : Nat → List Nat → Bool
  | _, [] => true
  | prev, u :: us => decide (prev + D ≤ u) && gapsGe D u us

/-- Decoded body of a GraphQL HTTP response (part_006 lines 91-94): an
optional `data` field and an optional `errors` array, modelled by the list
of the errors' `message` strings.  `errors = some es` stands for a present
`errors` array (truthy in JavaScript even when empty); `none` stands for an
absent or null `errors` field. -/
structure GqlBody (α : Type) where
  data : Option α
  errors : Option (List String)
deriving DecidableEq

/-- Classification of one `useGraphQL` attempt (part_006 lines 87-101): a
non-ok status throws `` Error(`Error: ${status} ${statusText}`) ``; an ok
response with a present `errors` array throws
`Error(errors.map(e => e.message).join('; '))`; otherwise the attempt
succeeds with `json.data`. -/
def runGqlAttempt {α : Type} (t : TransportResult (GqlBody α)) :
    Except String (Option α) :=
  match t with
  | .resolved r =>
      if r.ok then
        match r.body.errors with
        | some es => Except.error (String.intercalate "; " es)
        | none => Except.ok r.body.data
      else Except.error ("Error: " ++ toString r.status ++ " " ++ r.statusText)
  | .rejected e => Except.error (catchMessage e)

/-- The retry loop of part_006 lines 67-114.  Identical to `fetchLoopAux`
except for the attempt classification and for the terminal-failure path:
part_006 has no trailing `setLoading(false)` after the `while` loop, so
exhausting retries publishes `setLoading(false)` once (from the `finally`
clause) instead of twice. -/
def gqlLoopAux {α : Type} (retryDelay : Nat) (useCache : Bool)
    (transports : Nat → TransportResult (GqlBody α)) (attempt fuel : Nat) :
    List (Ev (Option α)) :=
  match fuel with
  | 0 => []
  | fuel' + 1 =>
      match runGqlAttempt (transports attempt) with
      | .ok v =>
          Ev.invoke :: Ev.setData v ::
            ((if useCache then [Ev.cacheWrite v] else []) ++
              [Ev.setError none, Ev.setLoading false])
      | .error m =>
          Ev.invoke :: Ev.setError (some m) ::
            (if fuel' = 0 then
              [Ev.setLoading false]
            else
              Ev.waitRetry retryDelay :: Ev.setLoading false ::
                gqlLoopAux retryDelay useCache transports (attempt + 1) fuel')

/-- Body of part_006's debounce callback (lines 57-115): cache-hit branch on
the GraphQL fingerprint, otherwise `setLoading(true)`, `setError(undefined)`
and the retry loop from attempt 0. -/
def gqlFetchData {α : Type} (useCache : Bool) (cached : Option (Option α))
    (retries retryDelay : Nat) (transports : Nat → TransportResult (GqlBody α)) :
    List (Ev (Option α)) :=
  match useCache, cached with
  | true, some v => [Ev.setData v, Ev.setLoading false]
  | _, _ =>
      Ev.setLoading true :: Ev.setError none ::
        gqlLoopAux retryDelay useCache transports 0 (retries + 1)

/-- The `CACHE_ALLOWED_METHOD` list (part_001 line 80). -/
def CACHE_ALLOWED_METHOD : List String := ["GET", "HEAD", "POST"]

/-- JavaScript truthiness of an optional request body modelled as an
optional string: absent and empty-string bodies are falsy. -/
def strTruthy (b : Option String) : Bool :=
  match b with
  | none => false
  | some s => !s.isEmpty

/-- Outcome of the config-normalization block: the surviving request body,
the surviving `useCache` flag, and the `console.warn` notices emitted. -/
structure NormResult where
  body : Option String
  useCache : Bool
  warnings : List String
deriving DecidableEq

/-- The `followConventions` normalization of part_001 lines 121-132: when
enabled, a `HEAD` request with a truthy body has the body deleted (two
warnings), and a method outside `CACHE_ALLOWED_METHOD` with `useCache`
requested has `useCache` forced off (two warnings); when disabled, body and
`useCache` pass through unchanged with no warnings. -/
def normalizeConfig (followConventions : Bool) (method : String)
    (body : Option String) (useCache : Bool) : NormResult :=
  if followConventions then
    let headHit := method == "HEAD" && strTruthy body
    let cacheHit := !CACHE_ALLOWED_METHOD.contains method && useCache
    { body := if headHit then none else body
    , useCache := if cacheHit then false else useCache
    , warnings :=
        (if headHit then
          ["HEAD requests should not have a body. Ignoring body.",
           "set followConventions to disable this feature."]
        else []) ++
        (if cacheHit then
          ["Caching is not allowed for " ++ method ++ " requests. Ignoring cache.",
           "set followConventions to disable this feature."]
        else []) }
  else { body := body, useCache := useCache, warnings := [] }

/-- The double-quote character (code point 34). -/
def dquoteChar : Char := Char.ofNat 34

/-- The backslash character (code point 92). -/
def backslashChar : Char := Char.ofNat 92

/-- The opening curly bracket (code point 123). -/
def lcurly : Char := Char.ofNat 123

/-- The closing curly bracket (code point 125). -/
def rcurly : Char := Char.ofNat 125

/-- The `JSON.stringify` escaping of one character inside a string literal,
restricted to the two escapes injectivity rests on (double quote and
backslash; control-character escapes are not modelled). -/
def escChar (c : Char) : List Char :=
  if c = backslashChar ∨ c = dquoteChar then [backslashChar, c] else [c]

/-- Escaped body of a JSON string literal. -/
def escBody (s : List Char) : List Char :=
  s.flatMap escChar

/-- A JSON string literal, as characters. -/
def jstrL (s : List Char) : List Char :=
  dquoteChar :: (escBody s ++ [dquoteChar])

/-- Serialization of the `variables` object's entries in insertion order,
comma-separated, each entry `"key":"value"` (variable values are modelled as
JSON strings). -/
def varsBody : List (String × String) → List Char
  | [] => []
  | (k, x) :: rest =>
      jstrL k.data ++ ':' :: jstrL x.data ++
        (match rest with
         | [] => []
         | _ :: _ => ',' :: varsBody rest)

/-- The GraphQL request fingerprint (part_006 line 44):
`JSON.stringify({ url, query, variables })`, whose object keys appear in
insertion order `url`, `query`, `variables`, and whose `variables` entries
appear in their own insertion order. -/
def cacheKeyL (url query : String) (vars : List (String × String)) : List Char :=
  lcurly :: (jstrL "url".data ++ ':' :: jstrL url.data ++
    ',' :: jstrL "query".data ++ ':' :: jstrL query.data ++
    ',' :: jstrL "variables".data ++ ':' ::
      lcurly :: (varsBody vars ++ [rcurly, rcurly]))

/-- The GraphQL request fingerprint as a string. -/
def cacheKey (url query : String) (vars : List (String × String)) : String :=
  String.mk (cacheKeyL url query vars)

/-- Inverse of string-literal escaping: consumes characters up to the first
unescaped double quote, returning the decoded characters and the rest of the
input. -/
def unesc : List Char → Option (List Char × List Char)
  | [] => none
  | c :: rest =>
      if c = backslashChar then
        match rest with
        | [] => none
        | d :: rest2 => Option.map (fun p => (d :: p.1, p.2)) (unesc rest2)
      else if c = dquoteChar then some ([], rest)
      else Option.map (fun p => (c :: p.1, p.2)) (unesc rest)

/-- Transport that always resolves ok with body 42. -/
def okTr : Nat → TransportResult Nat :=
  fun _ => TransportResult.resolved { ok := true, status := 200, statusText := "OK", body := 42 }

/-- GraphQL transport that always resolves ok with a body carrying the
non-empty errors list `["a", "b"]`. -/
def gqlErrTr : Nat → TransportResult (GqlBody Nat) :=
  fun _ => TransportResult.resolved
    { ok := true, status := 200, statusText := "OK"
    , body := { data := none, errors := some ["a", "b"] } }

/-- GraphQL transport that always resolves ok with a body carrying an empty
errors array. -/
def gqlEmptyTr : Nat → TransportResult (GqlBody Nat) :=
  fun _ => TransportResult.resolved
    { ok := true, status := 200, statusText := "OK"
    , body := { data := some 7, errors := some [] } }

/-- Every retry-delay wait the loop performs uses the configured
`retryDelay`. -/
theorem fetchLoopAux_wait_ms {α : Type} (d : Nat) (u : Bool)
    (tr : Nat → TransportResult α) :
    ∀ fuel attempt x, Ev.waitRetry x ∈ fetchLoopAux d u tr attempt fuel → x = d := by
  intro fuel
  induction fuel with
  | zero =>
      intro attempt x hx
      simp [fetchLoopAux] at hx
  | succ n ih =>
      intro attempt x hx
      rw [fetchLoopAux] at hx
      cases h : runAttempt (tr attempt) with
      | ok v =>
          rw [h] at hx
          cases u <;> simp_all
      | error m =>
          rw [h] at hx
          by_cases hn : n = 0
          · subst hn; simp_all
          · rw [if_neg hn] at hx
            simp only [List.mem_cons] at hx
            rcases hx with hx | hx | hx | hx | hx
            · exact Ev.noConfusion hx
            · exact Ev.noConfusion hx
            · injection hx
            · exact Ev.noConfusion hx
            · exact ih (attempt + 1) x hx

/-- When every attempt in range fails, the loop makes one transport
invocation per allowed iteration, waits between consecutive attempts, and
ends with `loading = false` and the last failure's message published, the
seeded `data` untouched. -/
theorem fetchLoopAux_allFail {α : Type} (d : Nat) (u : Bool)
    (tr : Nat → TransportResult α) (msgs : Nat → String) :
    ∀ fuel attempt,
      (∀ i, attempt ≤ i → i ≤ attempt + fuel → runAttempt (tr i) = Except.error (msgs i)) →
      ∀ s : FetchState α,
        countInvokes (fetchLoopAux d u tr attempt (fuel + 1)) = fuel + 1 ∧
        countWaits (fetchLoopAux d u tr attempt (fuel + 1)) = fuel ∧
        runEvents s (fetchLoopAux d u tr attempt (fuel + 1)) =
          { data := s.data, loading := false, error := some (msgs (attempt + fuel)) } := by
  intro fuel
  induction fuel with
  | zero =>
      intro attempt h s
      have h0 : runAttempt (tr attempt) = Except.error (msgs attempt) :=
        h attempt le_rfl (by omega)
      refine ⟨?_, ?_, ?_⟩ <;>
        simp [fetchLoopAux, h0, countInvokes, countWaits, runEvents, applyEv,
          isInvoke, isWaitEv]
  | succ n ih =>
      intro attempt h s
      have h0 : runAttempt (tr attempt) = Except.error (msgs attempt) :=
        h attempt le_rfl (by omega)
      have hrec := ih (attempt + 1)
        (fun i h1 h2 => h i (by omega) (by omega))
        { data := s.data, loading := false, error := some (msgs attempt) }
      refine ⟨?_, ?_, ?_⟩
      · rw [fetchLoopAux, h0, if_neg (Nat.succ_ne_zero n)]
        have h1 := hrec.1
        simp [countInvokes, isInvoke, List.countP_cons] at h1 ⊢
        omega
      · rw [fetchLoopAux, h0, if_neg (Nat.succ_ne_zero n)]
        have h1 := hrec.2.1
        simp [countWaits, isWaitEv, List.countP_cons] at h1 ⊢
        omega
      · rw [fetchLoopAux, h0, if_neg (Nat.succ_ne_zero n)]
        have : attempt + 1 + n = attempt + (n + 1) := by omega
        simpa [runEvents, applyEv, this] using hrec.2.2

/-- C1: for every `retries = r`, when every transport attempt fails the
debounce callback of `useFetch` makes exactly `r + 1` sequential transport
invocations, every inter-attempt wait uses the configured `retryDelay` and
there are exactly `r` of them (so `r = 0` means one attempt and no retry
wait), and the terminal published state has `loading = false`, `data` unset
and `error` equal to the last (`r+1`-th) failure's message. -/
theorem useFetch_allFail_terminal {α : Type} (r d : Nat)
    (tr : Nat → TransportResult α) (msgs : Nat → String)
    (h : ∀ i, i ≤ r → runAttempt (tr i) = Except.error (msgs i)) :
    countInvokes (fetchData false none r d tr) = r + 1 ∧
    countWaits (fetchData false none r d tr) = r ∧
    runEvents (initState false none) (fetchData false none r d tr) =
      { data := none, loading := false, error := some (msgs r) } ∧
    ∀ x, Ev.waitRetry x ∈ fetchData false none r d tr → x = d := by
  have key := fetchLoopAux_allFail d false tr msgs r 0
    (fun i h1 h2 => h i (by omega)) (initState false none)
  refine ⟨?_, ?_, ?_, ?_⟩
  · simpa [fetchData, countInvokes, isInvoke, List.countP_cons] using key.1
  · simpa [fetchData, countWaits, isWaitEv, List.countP_cons] using key.2.1
  · have h2 := key.2.2
    simp only [fetchData]
    simp [runEvents, applyEv, initState] at h2 ⊢
    simpa using h2
  · intro x hx
    simp only [fetchData, List.mem_cons] at hx
    rcases hx with hx | hx | hx
    · exact Ev.noConfusion hx
    · exact Ev.noConfusion hx
    · exact fetchLoopAux_wait_ms d false tr (r + 1) 0 x hx

/-- Witness for C1 at `r = 2`, `retryDelay = 5`, every attempt rejecting. -/
theorem useFetch_allFail_terminal_witness :
    countInvokes (fetchData false none 2 5 failBoom) = 3 ∧
    countWaits (fetchData false none 2 5 failBoom) = 2 ∧
    runEvents (initState false none) (fetchData false none 2 5 failBoom) =
      { data := none, loading := false, error := some "boom" } :=
  ⟨(useFetch_allFail_terminal 2 5 failBoom (fun _ => "boom") (fun _ _ => rfl)).1,
   (useFetch_allFail_terminal 2 5 failBoom (fun _ => "boom") (fun _ _ => rfl)).2.1,
   (useFetch_allFail_terminal 2 5 failBoom (fun _ => "boom") (fun _ _ => rfl)).2.2.1⟩

/-- C2 evidence: the `finally` clause at part_001 lines 193-195 runs
`setLoading(false)` at the end of every attempt, not only at the end of the
retry sequence.  With `retries = 1` and both attempts failing, the callback's
action list is `setLoading(true), setError(undefined), invoke,
setError("boom1"), wait, setLoading(false), invoke, setError("boom2"),
setLoading(false), setLoading(false)`.  After the first six actions the
published state already shows `loading = false` with `error` set, while the
second attempt's transport invocation is still to come — so
`loading = false ∧ error` set does not imply the attempt sequence has
terminated, and `loading` does not stay `true` across attempts. -/
theorem useFetch_loading_cleared_mid_sequence :
    runEvents (initState false none) ((fetchData false none 1 7 failTwice).take 6) =
      { data := none, loading := false, error := some "boom1" } ∧
    Ev.invoke ∈ (fetchData false none 1 7 failTwice).drop 6 := by
  decide

/-- C7 evidence: the unmount cleanup (part_001 lines 205-211) clears the
debounce timer, aborts the active controller and clears the tracked timeout
timers, but it sets no liveness flag and does not cancel the retry-delay
timer, so the async callback keeps executing after unmount.  First scenario
(`retries = 1`, both attempts fail, unmount while the retry-delay wait is
pending, i.e. after the first four actions): the remaining actions still
contain a transport invocation and four state publications.  Second scenario
(`retries = 0`, unmount while the attempt is in flight so the abort rejects
it, i.e. after the first three actions): the rejected promise's continuation
still performs three state publications. -/
theorem useFetch_unmount_publishes_continue :
    (Ev.invoke ∈ (fetchData false none 1 7 failTwice).drop 4 ∧
      ((fetchData false none 1 7 failTwice).drop 4).countP isPublish = 4) ∧
    ((fetchData false none 0 7 abortReject).drop 3).countP isPublish = 3 := by
  decide

/-- C6: a response with `ok = false` is classified as the failure message
`"Error: " ++ status ++ " " ++ statusText`; in particular
`{ok: false, status: 500, statusText: "Internal Server Error"}` with
`retries = 0` terminally publishes
`error = "Error: 500 Internal Server Error"`; and a caught value that is not
an `Error` instance is reported as "An unknown error occurred". -/
theorem useFetch_httpError_message :
    (∀ (status : Nat) (statusText : String) (b : Nat),
        runAttempt (TransportResult.resolved ⟨false, status, statusText, b⟩) =
          Except.error ("Error: " ++ toString status ++ " " ++ statusText)) ∧
    runEvents (initState false none)
        (fetchData false none 0 0
          (fun _ => TransportResult.resolved
            (⟨false, 500, "Internal Server Error", 0⟩ : Response Nat))) =
      { data := none, loading := false, error := some "Error: 500 Internal Server Error" } ∧
    runAttempt (TransportResult.rejected JsError.nonError : TransportResult Nat) =
      Except.error "An unknown error occurred" := by
  refine ⟨fun status statusText b => rfl, by decide, rfl⟩

/-- C3: with `useCache = true` and a shared cache initially lacking the
fingerprint, a first `useFetch` instance whose attempt 0 succeeds makes
exactly one transport invocation and writes the cache; a second instance
with the same fingerprint is then seeded at mount with the cached data and
`loading = false`, and when its debounce elapses the cache-hit branch
publishes the cached value with `loading = false` and makes zero transport
invocations — so the transport is invoked exactly once across both
instances. -/
theorem useFetch_cache_second_instance {α : Type} (url : String) (v : α)
    (c0 : Cache α) (r d r2 d2 : Nat) (tr tr2 : Nat → TransportResult α)
    (hmiss : cacheGet c0 url = none)
    (hok : runAttempt (tr 0) = Except.ok v) :
    countInvokes (fetchData true (cacheGet c0 url) r d tr) = 1 ∧
    cacheGet (runCache url c0 (fetchData true (cacheGet c0 url) r d tr)) url = some v ∧
    initState true (cacheGet (runCache url c0 (fetchData true (cacheGet c0 url) r d tr)) url) =
      { data := some v, loading := false, error := none } ∧
    fetchData true (cacheGet (runCache url c0 (fetchData true (cacheGet c0 url) r d tr)) url)
        r2 d2 tr2 = [Ev.setData v, Ev.setLoading false] ∧
    countInvokes (fetchData true
        (cacheGet (runCache url c0 (fetchData true (cacheGet c0 url) r d tr)) url)
        r2 d2 tr2) = 0 ∧
    runEvents
        (initState true (cacheGet (runCache url c0 (fetchData true (cacheGet c0 url) r d tr)) url))
        (fetchData true (cacheGet (runCache url c0 (fetchData true (cacheGet c0 url) r d tr)) url)
          r2 d2 tr2) =
      { data := some v, loading := false, error := none } := by
  rw [hmiss]
  have hA : fetchData true none r d tr =
      [Ev.setLoading true, Ev.setError none, Ev.invoke, Ev.setData v,
       Ev.cacheWrite v, Ev.setError none, Ev.setLoading false] := by
    simp [fetchData, fetchLoopAux, hok]
  rw [hA]
  have hc1 : cacheGet (runCache url c0
      [Ev.setLoading true, Ev.setError none, Ev.invoke, Ev.setData v,
       Ev.cacheWrite v, Ev.setError none, Ev.setLoading false]) url = some v := by
    simp [runCache, applyCacheEv, cacheSet, cacheGet]
  rw [hc1]
  refine ⟨?_, rfl, ?_, ?_, ?_, ?_⟩ <;>
    simp [countInvokes, isInvoke, List.countP_cons, fetchData, initState,
      runEvents, applyEv]

/-- Witness for C3 with a concrete URL, value 42, empty initial cache. -/
theorem useFetch_cache_second_instance_witness :
    cacheGet ([] : Cache Nat) "u" = none ∧
    countInvokes (fetchData true (cacheGet ([] : Cache Nat) "u") 0 0 okTr) = 1 ∧
    countInvokes (fetchData true
      (cacheGet (runCache "u" ([] : Cache Nat)
        (fetchData true (cacheGet ([] : Cache Nat) "u") 0 0 okTr)) "u") 0 0 okTr) = 0 :=
  ⟨rfl,
   (useFetch_cache_second_instance "u" 42 [] 0 0 0 0 okTr okTr rfl rfl).1,
   (useFetch_cache_second_instance "u" 42 [] 0 0 0 0 okTr okTr rfl rfl).2.2.2.2.1⟩

/-- While triggers keep arriving less than `D` after the previous one, the
pending timer never fires: the fold just reschedules it. -/
theorem debounceFold_burst (D : Nat) :
    ∀ (ts : List Nat) (prev : Nat) (fired : List Nat),
      gapsLt D prev ts = true →
      ts.foldl (dtrigger D) { pending := some (prev + D), fired := fired } =
        { pending := some (lastTime ts prev + D), fired := fired } := by
  intro ts
  induction ts with
  | nil =>
      intro prev fired _
      simp [lastTime]
  | cons u us ih =>
      intro prev fired h
      simp only [gapsLt, Bool.and_eq_true, decide_eq_true_eq] at h
      obtain ⟨⟨hle, hlt⟩, hchain⟩ := h
      have hn : ¬ (prev + D ≤ u) := by omega
      have hstep : dtrigger D { pending := some (prev + D), fired := fired } u =
          { pending := some (u + D), fired := fired } := by
        simp [dtrigger, flushUpTo, hn]
      simp only [List.foldl_cons, hstep, lastTime]
      exact ih u fired hchain

/-- When every trigger arrives at least `D` after the previous one, each
pending timer fires before the next trigger: every trigger produces its own
invocation, `D` after it. -/
theorem debounceFold_spaced (D : Nat) :
    ∀ (ts : List Nat) (prev : Nat) (fired : List Nat),
      gapsGe D prev ts = true →
      finalFires (ts.foldl (dtrigger D) { pending := some (prev + D), fired := fired }) =
        fired ++ (prev :: ts).map (· + D) := by
  intro ts
  induction ts with
  | nil =>
      intro prev fired _
      simp [finalFires]
  | cons u us ih =>
      intro prev fired h
      simp only [gapsGe, Bool.and_eq_true, decide_eq_true_eq] at h
      obtain ⟨hle, hchain⟩ := h
      have hstep : dtrigger D { pending := some (prev + D), fired := fired } u =
          { pending := some (u + D), fired := fired ++ [prev + D] } := by
        simp [dtrigger, flushUpTo, hle]
      simp only [List.foldl_cons, hstep]
      rw [ih u (fired ++ [prev + D]) hchain]
      simp

/-- C4: the debounce gate of `fetchData` is trailing-edge: a trigger always
(re)schedules the callback `D` after itself, cancelling a still-pending
timer; a burst of triggers each spaced less than `D` after the previous one
produces exactly one invocation, `D` after the last trigger; triggers spaced
at least `D` apart each produce their own invocation. -/
theorem fetchData_debounce_trailing_edge (D t : Nat) (ts : List Nat) :
    (∀ (s : DebounceState) (u : Nat), (dtrigger D s u).pending = some (u + D)) ∧
    (gapsLt D t ts = true →
        debounceRun D (t :: ts) = [lastTime ts t + D]) ∧
    (gapsGe D t ts = true →
        debounceRun D (t :: ts) = (t :: ts).map (· + D)) := by
  have h0 : dtrigger D { pending := none, fired := [] } t =
      { pending := some (t + D), fired := [] } := rfl
  refine ⟨fun s u => rfl, ?_, ?_⟩
  · intro h
    simp only [debounceRun, List.foldl_cons, h0]
    rw [debounceFold_burst D ts t [] h]
    simp [finalFires]
  · intro h
    simp only [debounceRun, List.foldl_cons, h0]
    rw [debounceFold_spaced D ts t [] h]
    simp

/-- Witness for C4: with `D = 10`, the burst `0, 3, 5` fires once at 15; the
spaced triggers `0, 10, 25` fire at 10, 20 and 35. -/
theorem fetchData_debounce_trailing_edge_witness :
    (dtrigger 10 { pending := some 4, fired := [] } 2).pending = some 12 ∧
    debounceRun 10 [0, 3, 5] = [15] ∧
    debounceRun 10 [0, 10, 25] = [10, 20, 35] :=
  ⟨(fetchData_debounce_trailing_edge 10 0 [3, 5]).1 { pending := some 4, fired := [] } 2,
   (fetchData_debounce_trailing_edge 10 0 [3, 5]).2.1 (by decide),
   (fetchData_debounce_trailing_edge 10 0 [10, 25]).2.2 (by decide)⟩

/-- GraphQL analogue of `fetchLoopAux_allFail`: when every attempt in range
fails, the loop makes one transport invocation per allowed iteration and
ends with `loading = false` and the last failure's message published. -/
theorem gqlLoopAux_allFail {α : Type} (d : Nat) (u : Bool)
    (tr : Nat → TransportResult (GqlBody α)) (msgs : Nat → String) :
    ∀ fuel attempt,
      (∀ i, attempt ≤ i → i ≤ attempt + fuel → runGqlAttempt (tr i) = Except.error (msgs i)) →
      ∀ s : FetchState (Option α),
        countInvokes (gqlLoopAux d u tr attempt (fuel + 1)) = fuel + 1 ∧
        runEvents s (gqlLoopAux d u tr attempt (fuel + 1)) =
          { data := s.data, loading := false, error := some (msgs (attempt + fuel)) } := by
  intro fuel
  induction fuel with
  | zero =>
      intro attempt h s
      have h0 : runGqlAttempt (tr attempt) = Except.error (msgs attempt) :=
        h attempt le_rfl (by omega)
      refine ⟨?_, ?_⟩ <;>
        simp [gqlLoopAux, h0, countInvokes, runEvents, applyEv, isInvoke]
  | succ n ih =>
      intro attempt h s
      have h0 : runGqlAttempt (tr attempt) = Except.error (msgs attempt) :=
        h attempt le_rfl (by omega)
      have hrec := ih (attempt + 1)
        (fun i h1 h2 => h i (by omega) (by omega))
        { data := s.data, loading := false, error := some (msgs attempt) }
      refine ⟨?_, ?_⟩
      · rw [gqlLoopAux, h0, if_neg (Nat.succ_ne_zero n)]
        have h1 := hrec.1
        simp [countInvokes, isInvoke, List.countP_cons] at h1 ⊢
        omega
      · rw [gqlLoopAux, h0, if_neg (Nat.succ_ne_zero n)]
        have : attempt + 1 + n = attempt + (n + 1) := by omega
        simpa [runEvents, applyEv, this] using hrec.2

/-- C5: a `useGraphQL` response with a successful (ok) HTTP status whose
decoded body carries a non-empty `errors` list is reclassified as a failure
whose message is the errors' messages joined with "; ", and when every
attempt settles that way the hook terminates with `loading = false`, `data`
unset and `error` equal to the last attempt's joined messages, after
`r + 1` transport invocations — even though every transport call itself
succeeded. -/
theorem useGraphQL_errors_reclassified {α : Type} (r d : Nat)
    (tr : Nat → TransportResult (GqlBody α))
    (st : Nat → Nat) (sx : Nat → String) (bd : Nat → Option α) (es : Nat → List String)
    (htr : ∀ i, i ≤ r →
      tr i = TransportResult.resolved
        { ok := true, status := st i, statusText := sx i
        , body := { data := bd i, errors := some (es i) } })
    (_hne : ∀ i, i ≤ r → es i ≠ []) :
    (∀ i, i ≤ r → runGqlAttempt (tr i) = Except.error (String.intercalate "; " (es i))) ∧
    countInvokes (gqlFetchData false none r d tr) = r + 1 ∧
    runEvents (initState false none) (gqlFetchData false none r d tr) =
      { data := none, loading := false
      , error := some (String.intercalate "; " (es r)) } := by
  have hclass : ∀ i, i ≤ r →
      runGqlAttempt (tr i) = Except.error (String.intercalate "; " (es i)) := by
    intro i hi
    rw [htr i hi]
    simp [runGqlAttempt]
  have key := gqlLoopAux_allFail d false tr (fun i => String.intercalate "; " (es i)) r 0
    (fun i h1 h2 => hclass i (by omega)) (initState false none)
  refine ⟨hclass, ?_, ?_⟩
  · simpa [gqlFetchData, countInvokes, isInvoke, List.countP_cons] using key.1
  · have h2 := key.2
    simp only [gqlFetchData]
    simp [runEvents, applyEv, initState] at h2 ⊢
    simpa using h2

/-- Witness for C5 at `r = 1` with every response ok and
`errors = ["a", "b"]`. -/
theorem useGraphQL_errors_reclassified_witness :
    runGqlAttempt (gqlErrTr 0) = Except.error "a; b" ∧
    countInvokes (gqlFetchData false none 1 0 gqlErrTr) = 2 ∧
    runEvents (initState false none) (gqlFetchData false none 1 0 gqlErrTr) =
      { data := none, loading := false, error := some "a; b" } :=
  ⟨(useGraphQL_errors_reclassified 1 0 gqlErrTr (fun _ => 200) (fun _ => "OK")
      (fun _ => none) (fun _ => ["a", "b"]) (fun _ _ => rfl)
      (fun _ _ => List.cons_ne_nil _ _)).1 0 (by decide),
   (useGraphQL_errors_reclassified 1 0 gqlErrTr (fun _ => 200) (fun _ => "OK")
      (fun _ => none) (fun _ => ["a", "b"]) (fun _ _ => rfl)
      (fun _ _ => List.cons_ne_nil _ _)).2.1,
   (useGraphQL_errors_reclassified 1 0 gqlErrTr (fun _ => 200) (fun _ => "OK")
      (fun _ => none) (fun _ => ["a", "b"]) (fun _ _ => rfl)
      (fun _ _ => List.cons_ne_nil _ _)).2.2⟩

/-- C10: a `useGraphQL` response whose decoded body carries an empty
`errors` array (`[]`, truthy in JavaScript) is nonetheless classified as a
failure with the empty-string message (`[].map(...).join('; ') = ""`), and
when every attempt settles that way each one consumes a retry attempt: the
hook makes `r + 1` invocations and terminates with `error = some ""`. -/
theorem useGraphQL_empty_errors_failure {α : Type} (r d : Nat)
    (tr : Nat → TransportResult (GqlBody α))
    (st : Nat → Nat) (sx : Nat → String) (bd : Nat → Option α)
    (htr : ∀ i, i ≤ r →
      tr i = TransportResult.resolved
        { ok := true, status := st i, statusText := sx i
        , body := { data := bd i, errors := some [] } }) :
    (∀ i, i ≤ r → runGqlAttempt (tr i) = Except.error "") ∧
    countInvokes (gqlFetchData false none r d tr) = r + 1 ∧
    runEvents (initState false none) (gqlFetchData false none r d tr) =
      { data := none, loading := false, error := some "" } := by
  have hclass : ∀ i, i ≤ r → runGqlAttempt (tr i) = Except.error "" := by
    intro i hi
    rw [htr i hi]
    simp [runGqlAttempt, String.intercalate]
  have key := gqlLoopAux_allFail d false tr (fun _ => "") r 0
    (fun i h1 h2 => hclass i (by omega)) (initState false none)
  refine ⟨hclass, ?_, ?_⟩
  · simpa [gqlFetchData, countInvokes, isInvoke, List.countP_cons] using key.1
  · have h2 := key.2
    simp only [gqlFetchData]
    simp [runEvents, applyEv, initState] at h2 ⊢
    simpa using h2

/-- Witness for C10 at `r = 1` with every response ok and `errors = []`. -/
theorem useGraphQL_empty_errors_failure_witness :
    runGqlAttempt (gqlEmptyTr 0) = Except.error "" ∧
    countInvokes (gqlFetchData false none 1 0 gqlEmptyTr) = 2 ∧
    runEvents (initState false none) (gqlFetchData false none 1 0 gqlEmptyTr) =
      { data := none, loading := false, error := some "" } :=
  ⟨(useGraphQL_empty_errors_failure 1 0 gqlEmptyTr (fun _ => 200) (fun _ => "OK")
      (fun _ => some 7) (fun _ _ => rfl)).1 0 (by decide),
   (useGraphQL_empty_errors_failure 1 0 gqlEmptyTr (fun _ => 200) (fun _ => "OK")
      (fun _ => some 7) (fun _ _ => rfl)).2.1,
   (useGraphQL_empty_errors_failure 1 0 gqlEmptyTr (fun _ => 200) (fun _ => "OK")
      (fun _ => some 7) (fun _ _ => rfl)).2.2⟩

/-- C8: with `followConventions` disabled the configuration passes through
untouched with no notices; with it enabled (the default), a `HEAD` request
with a truthy body has the body removed (with notices, `useCache`
untouched), and a method outside `CACHE_ALLOWED_METHOD` with `useCache`
requested has caching force-disabled (with notices, body untouched). -/
theorem useFetch_followConventions (method : String) (bd : Option String) (uc : Bool) :
    normalizeConfig false method bd uc = { body := bd, useCache := uc, warnings := [] } ∧
    (strTruthy bd = true →
        (normalizeConfig true "HEAD" bd uc).body = none ∧
        (normalizeConfig true "HEAD" bd uc).useCache = uc ∧
        (normalizeConfig true "HEAD" bd uc).warnings ≠ []) ∧
    (CACHE_ALLOWED_METHOD.contains method = false → uc = true →
        (normalizeConfig true method bd uc).useCache = false ∧
        (normalizeConfig true method bd uc).body = bd ∧
        (normalizeConfig true method bd uc).warnings ≠ []) := by
  refine ⟨rfl, ?_, ?_⟩
  · intro hb
    simp [normalizeConfig, hb, CACHE_ALLOWED_METHOD]
  · intro hm huc
    subst huc
    have hme : method ≠ "HEAD" := by
      intro he
      subst he
      exact absurd hm (by decide)
    have hhead : (method == "HEAD") = false := by
      simp [hme]
    refine ⟨?_, ?_, ?_⟩ <;>
      · simp only [normalizeConfig, hm, hhead]
        simp

/-- Witness for C8 at a truthy body "x" and the non-cacheable method PUT. -/
theorem useFetch_followConventions_witness :
    strTruthy (some "x") = true ∧
    normalizeConfig false "PUT" (some "x") true =
      { body := some "x", useCache := true, warnings := [] } ∧
    (normalizeConfig true "HEAD" (some "x") true).body = none ∧
    (normalizeConfig true "PUT" (some "x") true).useCache = false ∧
    (normalizeConfig true "PUT" (some "x") true).warnings ≠ [] :=
  ⟨rfl,
   (useFetch_followConventions "PUT" (some "x") true).1,
   ((useFetch_followConventions "PUT" (some "x") true).2.1 rfl).1,
   ((useFetch_followConventions "PUT" (some "x") true).2.2 rfl rfl).1,
   ((useFetch_followConventions "PUT" (some "x") true).2.2 rfl rfl).2.2⟩

/-- Two strings with the same character data are equal. -/
theorem strData_inj : ∀ {a b : String}, a.data = b.data → a = b := by
  intro a b h
  cases a
  cases b
  simp_all

/-- Running `unesc` at an unescaped double quote: the literal ends here. -/
theorem unesc_quote (r : List Char) : unesc (dquoteChar :: r) = some ([], r) := by
  have h1 : dquoteChar ≠ backslashChar := by decide
  rw [unesc.eq_def]
  simp [h1]

/-- Running `unesc` at a backslash: the next character is taken literally. -/
theorem unesc_esc (d : Char) (rest : List Char) :
    unesc (backslashChar :: d :: rest) =
      Option.map (fun p => (d :: p.1, p.2)) (unesc rest) := by
  rw [unesc]
  rw [if_pos rfl]

/-- Running `unesc` at an ordinary character: it is taken as-is. -/
theorem unesc_plain (c : Char) (rest : List Char) (h1 : c ≠ backslashChar)
    (h2 : c ≠ dquoteChar) :
    unesc (c :: rest) = Option.map (fun p => (c :: p.1, p.2)) (unesc rest) := by
  rw [unesc.eq_def]
  simp [h1, h2]

/-- The escaping used inside JSON string literals is invertible: `unesc`
recovers the original characters and the input past the closing quote. -/
theorem unesc_escBody (s : List Char) :
    ∀ r, unesc (escBody s ++ dquoteChar :: r) = some (s, r) := by
  induction s with
  | nil =>
      intro r
      simp only [escBody, List.flatMap_nil, List.nil_append]
      exact unesc_quote r
  | cons c cs ih =>
      intro r
      by_cases hc : c = backslashChar ∨ c = dquoteChar
      · have h1 : escChar c = [backslashChar, c] := by
          rw [escChar, if_pos hc]
        have e1 : escBody (c :: cs) ++ dquoteChar :: r =
            backslashChar :: c :: (escBody cs ++ dquoteChar :: r) := by
          simp [escBody, h1]
        rw [e1, unesc_esc, ih r]
        rfl
      · push_neg at hc
        have h1 : escChar c = [c] := by
          rw [escChar, if_neg]
          simpa using hc
        have e1 : escBody (c :: cs) ++ dquoteChar :: r =
            c :: (escBody cs ++ dquoteChar :: r) := by
          simp [escBody, h1]
        rw [e1, unesc_plain c _ hc.1 hc.2, ih r]
        rfl

/-- Two JSON string literals followed by arbitrary suffixes agree exactly
when the encoded strings and the suffixes agree. -/
theorem jstrL_strip {a b r1 r2 : List Char}
    (h : jstrL a ++ r1 = jstrL b ++ r2) : a = b ∧ r1 = r2 := by
  have h' : escBody a ++ dquoteChar :: r1 = escBody b ++ dquoteChar :: r2 := by
    simp only [jstrL, List.cons_append, List.append_assoc,
      List.singleton_append, List.cons.injEq, true_and] at h
    exact h
  have h2 := congrArg unesc h'
  rw [unesc_escBody a r1, unesc_escBody b r2] at h2
  simp only [Option.some.injEq, Prod.mk.injEq] at h2
  exact h2

/-- Serialized `variables` objects followed by the closing bracket and
arbitrary suffixes agree exactly when the entry lists and suffixes agree. -/
theorem varsBody_strip :
    ∀ (v1 v2 : List (String × String)) (t1 t2 : List Char),
      varsBody v1 ++ rcurly :: t1 = varsBody v2 ++ rcurly :: t2 →
      v1 = v2 ∧ t1 = t2 := by
  have hqr : rcurly ≠ dquoteChar := by decide
  have hcr : rcurly ≠ ',' := by decide
  intro v1
  induction v1 with
  | nil =>
      intro v2 t1 t2 h
      cases v2 with
      | nil =>
          simpa [varsBody] using h
      | cons e2 r2 =>
          exfalso
          obtain ⟨k2, x2⟩ := e2
          simp only [varsBody, jstrL, List.nil_append, List.cons_append,
            List.append_assoc, List.cons.injEq] at h
          exact hqr h.1
  | cons e1 r1 ih =>
      intro v2 t1 t2 h
      obtain ⟨k1, x1⟩ := e1
      cases v2 with
      | nil =>
          exfalso
          simp only [varsBody, jstrL, List.nil_append, List.cons_append,
            List.append_assoc, List.cons.injEq] at h
          exact hqr h.1.symm
      | cons e2 r2 =>
          obtain ⟨k2, x2⟩ := e2
          simp only [varsBody, List.cons_append, List.append_assoc] at h
          obtain ⟨hk, h⟩ := jstrL_strip h
          simp only [List.cons.injEq, true_and] at h
          obtain ⟨hx, h⟩ := jstrL_strip h
          cases r1 with
          | nil =>
              cases r2 with
              | nil =>
                  simp only [List.nil_append, List.cons.injEq, true_and] at h
                  exact ⟨by rw [strData_inj hk, strData_inj hx], h⟩
              | cons f2 s2 =>
                  exfalso
                  simp only [List.nil_append, List.cons_append,
                    List.append_assoc, List.cons.injEq] at h
                  exact hcr h.1
          | cons f1 s1 =>
              cases r2 with
              | nil =>
                  exfalso
                  simp only [List.nil_append, List.cons_append,
                    List.append_assoc, List.cons.injEq] at h
                  exact hcr h.1.symm
              | cons f2 s2 =>
                  simp only [List.cons_append, List.append_assoc,
                    List.cons.injEq, true_and] at h
                  obtain ⟨hr, ht⟩ := ih (f2 :: s2) t1 t2 h
                  exact ⟨by rw [strData_inj hk, strData_inj hx, hr], ht⟩

/-- C9 (amended): the GraphQL fingerprint
`JSON.stringify({url, query, variables})` determines and is determined by
the URL, the query text and the insertion-ordered `variables` entry list:
two requests produce the same fingerprint exactly when URL, query and
variables sequence (including key order) all coincide — in particular
requests differing in any of the three never collide. -/
theorem cacheKey_fingerprint (u1 q1 : String) (v1 : List (String × String))
    (u2 q2 : String) (v2 : List (String × String)) :
    cacheKey u1 q1 v1 = cacheKey u2 q2 v2 ↔ u1 = u2 ∧ q1 = q2 ∧ v1 = v2 := by
  constructor
  · intro h
    have hd : cacheKeyL u1 q1 v1 = cacheKeyL u2 q2 v2 := congrArg String.data h
    simp only [cacheKeyL, List.cons_append, List.append_assoc,
      List.cons.injEq, true_and] at hd
    have hd2 := List.append_cancel_left hd
    simp only [List.cons.injEq, true_and] at hd2
    obtain ⟨hu, hd3⟩ := jstrL_strip hd2
    simp only [List.cons.injEq, true_and] at hd3
    have hd4 := List.append_cancel_left hd3
    simp only [List.cons.injEq, true_and] at hd4
    obtain ⟨hq, hd5⟩ := jstrL_strip hd4
    simp only [List.cons.injEq, true_and] at hd5
    have hd6 := List.append_cancel_left hd5
    simp only [List.cons.injEq, true_and] at hd6
    obtain ⟨hv, _⟩ := varsBody_strip v1 v2 [rcurly] [rcurly] hd6
    exact ⟨strData_inj hu, strData_inj hq, hv⟩
  · rintro ⟨rfl, rfl, rfl⟩
    rfl

/-- C9 counterexample: the two variables maps `{a: "1", b: "2"}` and
`{b: "2", a: "1"}` are equal as maps (a permutation of each other, with
duplicate-free keys), yet their insertion orders differ and
`JSON.stringify` keeps insertion order, so the two logically identical
requests get distinct fingerprints. -/
theorem cacheKey_order_sensitive :
    ([("a", "1"), ("b", "2")] : List (String × String)).Perm
        [("b", "2"), ("a", "1")] ∧
    (([("a", "1"), ("b", "2")] : List (String × String)).map Prod.fst).Nodup ∧
    cacheKey "u" "q" [("a", "1"), ("b", "2")] ≠
      cacheKey "u" "q" [("b", "2"), ("a", "1")] := by
  refine ⟨by decide, by decide, by decide⟩

end NetworkReact
